import Mathlib

/-!
Shallow embedding of `src/pytorch/train.py` (plant-seedlings-classification).

Real arithmetic performed on Python floats is modelled exactly over `ℚ`;
the float `np.inf` used to initialise the best-loss slots is modelled as
`⊤ : WithTop ℚ`.  A mini-batch delivered by a data loader is abstracted to
the three quantities the loop reads off it: the batch size
(`list(labels.size())[0]`), the number of correct predictions
(`(predict == labels).sum().item()`) and the scalar loss (`loss.item()`).
File writes (`torch.save`) and the pass structure are recorded as an event
trace.
-/

namespace Seedlings

/-- The observable outcome of processing one mini-batch in `train`
(train.py lines 88-100 / 129-139): batch size, correct-prediction count
and scalar loss value. -/
structure BatchResult where
  size : Nat
  correct : Nat
  loss : ℚ
deriving DecidableEq

/-- The three per-pass accumulators `total`, `correct`, `running_loss`
(train.py lines 82-84 and 124-126). -/
structure PassTotals where
  total : Nat
  correct : Nat
  running_loss : ℚ
deriving DecidableEq

/-- Accumulators at the start of a pass: `total = 0`, `correct = 0`,
`running_loss = 0.0` (train.py lines 82-84, 124-126). -/
def initTotals : PassTotals := ⟨0, 0, 0⟩

/-- One loop iteration of a pass: `total += batch size`,
`correct += (predict == labels).sum()`, `running_loss += loss.item()`
(train.py lines 96-100, 135-139). -/
def accumBatch (t : PassTotals) (b : BatchResult) : PassTotals :=
  ⟨t.total + b.size, t.correct + b.correct, t.running_loss + b.loss⟩

/-- A full pass over the batches delivered by a data loader, in delivery
order, starting from zeroed accumulators. -/
def runPass (bs : List BatchResult) : PassTotals :=
  bs.foldl accumBatch initTotals

/-- The accuracy expression `100 * correct / total` (train.py lines 112,
148).  In Python this is integer-to-float true division and raises
`ZeroDivisionError` when `total = 0`; the failure is modelled as `none`. -/
def runningAcc (t : PassTotals) : Option ℚ :=
  if t.total = 0 then none else some (100 * (t.correct : ℚ) / (t.total : ℚ))

/-- The four best-so-far scalars (train.py lines 75-78).  The loss slots
live in `WithTop ℚ` because they are initialised to `np.inf`. -/
structure Best where
  loss_train : WithTop ℚ
  loss_valid : WithTop ℚ
  acc_train : ℚ
  acc_valid : ℚ
deriving DecidableEq

/-- Initial best-so-far state: `best_loss_train = np.inf`,
`best_loss_valid = np.inf`, `best_acc_train = 0.0`,
`best_acc_valid = 0.0` (train.py lines 75-78). -/
def Best.init : Best := ⟨⊤, ⊤, 0, 0⟩

/-- Which split a pass ran over. -/
inductive Split
  | train
  | valid
deriving DecidableEq

/-- Observable events of the training loop: completion of a pass over a
split, a `torch.save` to a named file, and the per-pass metric report
(the two `print` calls after each pass). -/
inductive Ev
  | pass (s : Split)
  | save (f : String)
  | report (s : Split) (loss : ℚ) (acc : ℚ)
deriving DecidableEq

/-- One best-loss slot evaluation (train.py lines 105-110 and 141-146):
`if running_loss < best: best = running_loss; torch.save(model...);`
`torch.save(optim...)`.  Returns the new stored value and the list of
files written. -/
def checkLoss (best : WithTop ℚ) (running : ℚ) (modelFile optimFile : String) :
    WithTop ℚ × List String :=
  if (running : WithTop ℚ) < best then ((running : WithTop ℚ), [modelFile, optimFile])
  else (best, [])

/-- One best-accuracy slot evaluation (train.py lines 113-118 and
149-154): `if running_acc > best: best = running_acc; save; save`. -/
def checkAcc (best : ℚ) (running : ℚ) (modelFile optimFile : String) :
    ℚ × List String :=
  if running > best then (running, [modelFile, optimFile])
  else (best, [])

/-- One iteration of `for ep in np.arange(epochs)` (train.py lines
80-157): train pass, train-slot checkpoint evaluations, train report,
valid pass, valid-slot checkpoint evaluations, valid report.  The
`running_acc` divisions happen after the corresponding loss-slot block,
so a `ZeroDivisionError` (modelled as the `none` branches) still leaves
the earlier `torch.save` writes in the trace. -/
def epochStep (tb vb : List BatchResult) (b : Best) : List Ev × Option Best :=
  let t := runPass tb
  let lt := checkLoss b.loss_train t.running_loss
    "model_best_loss_train.pth" "optim_best_loss_train.pth"
  match runningAcc t with
  | none => (Ev.pass Split.train :: lt.2.map Ev.save, none)
  | some accT =>
    let at' := checkAcc b.acc_train accT
      "model_best_acc_train.pth" "optim_best_acc_train.pth"
    let v := runPass vb
    let lv := checkLoss b.loss_valid v.running_loss
      "model_best_loss_valid.pth" "optim_best_loss_valid.pth"
    match runningAcc v with
    | none =>
      (Ev.pass Split.train :: (lt.2.map Ev.save ++ at'.2.map Ev.save ++
        (Ev.report Split.train t.running_loss accT :: Ev.pass Split.valid ::
          lv.2.map Ev.save)), none)
    | some accV =>
      let av := checkAcc b.acc_valid accV
        "model_best_acc_valid.pth" "optim_best_acc_valid.pth"
      (Ev.pass Split.train :: (lt.2.map Ev.save ++ at'.2.map Ev.save ++
        (Ev.report Split.train t.running_loss accT :: Ev.pass Split.valid ::
          (lv.2.map Ev.save ++ av.2.map Ev.save ++
            [Ev.report Split.valid v.running_loss accV]))),
       some ⟨lt.1, lv.1, at'.1, av.1⟩)

/-- The whole loop `for ep in np.arange(epochs)` of `train`: the batches
each epoch delivers are abstracted as a function of the epoch index (the
train loader shuffles, so deliveries may differ between epochs).  A
`ZeroDivisionError` aborts the run, keeping the trace so far. -/
def runEpochs (data : Nat → List BatchResult × List BatchResult) :
    Nat → List Ev × Option Best
  | 0 => ([], some Best.init)
  | n + 1 =>
    match runEpochs data n with
    | (tr, none) => (tr, none)
    | (tr, some b) =>
      let e := epochStep (data n).1 (data n).2 b
      (tr ++ e.1, e.2)

/-! ### Model-state view of the two passes

For the frame property of the validation pass the model is embedded as a
parameter state `P` together with the boolean mode flag toggled by
`model.train()` / `model.eval()`.  Under `torch.no_grad()` with the model
in evaluation mode, `model(inputs)` and `criterion(outputs, labels)` are
pure functions of the parameters, abstracted as `forwardEval`; in training
mode a forward may itself mutate model state (batch-norm statistics), so
`forwardTrain` returns a new `P`. -/

/-- A model as the training script sees it: a parameter state plus the
training-mode flag set by `model.train()` / `model.eval()`. -/
structure ModelState (P : Type) where
  params : P
  training : Bool
deriving DecidableEq

/-- The validation pass (train.py lines 127-139): `model.eval()`, then
under `torch.no_grad()` one pure forward-and-score per batch, in order,
accumulating `total`, `correct`, `running_loss` from zero.  `forwardEval`
gives the `BatchResult` of one batch as a pure function of the
parameters. -/
def valid_pass {P O β : Type} (forwardEval : P → β → BatchResult)
    (m : ModelState P) (o : O) (batches : List β) :
    ModelState P × O × PassTotals :=
  let m1 : ModelState P := ⟨m.params, false⟩
  (m1, o, runPass (batches.map (forwardEval m1.params)))

/-- The training pass (train.py lines 87-103): `model.train()`, then per
batch `optimizer.zero_grad()`, a forward (which in training mode may
mutate model state), metric accumulation, and `loss.backward()` followed
by `optimizer.step()` (abstracted together as `backwardStep`, the only
parameter mutation). -/
def train_pass {P O β : Type} (forwardTrain : P → β → P × BatchResult)
    (zeroGrad : O → O) (backwardStep : P → O → P × O)
    (m : ModelState P) (o : O) (batches : List β) :
    ModelState P × O × PassTotals :=
  let m1 : ModelState P := ⟨m.params, true⟩
  let step := fun (st : P × O × PassTotals) (batch : β) =>
    let o1 := zeroGrad st.2.1
    let fr := forwardTrain st.1 batch
    let acc := accumBatch st.2.2 fr.2
    let po := backwardStep fr.1 o1
    (po.1, po.2, acc)
  let fin := batches.foldl step (m1.params, o, initTotals)
  (⟨fin.1, true⟩, fin.2.1, fin.2.2)

/-! ### The `main` pipeline: configuration, class-id mapping, labels,
initialisation paths. -/

/-- The parsed command-line configuration (train.py lines 24-46). -/
structure Config where
  train_csv : String
  valid_csv : String
  lr : ℚ
  bs : Nat
  workers : Nat
  momentum : ℚ
  epochs : Nat
  resize_to : Nat
  save_to : String
  load_from : Option String
  pretrained : Bool
deriving DecidableEq

/-- The class-id mapping (train.py lines 170-171):
`{x: y for x, y in zip(list(set(train_classes)), np.arange(len(set(train_classes))))}`.
`list(set(...))` enumerates the distinct class names in an unspecified
but fixed order; `List.dedup` models that enumeration (it keeps one
occurrence of each name, preserving relative order). -/
def classes_mp (train_classes : List String) : List (String × Nat) :=
  train_classes.dedup.zip (List.range train_classes.dedup.length)

/-- Label construction (train.py lines 172-173):
`[classes_mp[name] for name in classes]`, an eager list comprehension
evaluated row by row.  A name absent from the mapping raises `KeyError`,
modelled as `none`. -/
def buildLabels (mp : List (String × Nat)) : List String → Option (List Nat)
  | [] => some []
  | name :: rest =>
    match mp.lookup name, buildLabels mp rest with
    | some v, some l => some (v :: l)
    | _, _ => none

/-- The Adam optimizer construction (train.py line 208):
`optim.Adam(model.parameters(), args.lr)` consumes only the learning
rate; `args.momentum` is parsed (line 34) but never read afterwards. -/
structure AdamSpec where
  lr : ℚ
deriving DecidableEq

/-- Builds the optimizer from the configuration (train.py line 208). -/
def buildOptimizer (cfg : Config) : AdamSpec := ⟨cfg.lr⟩

/-- The observable actions of the initialisation block (train.py lines
210-231). -/
inductive InitAction
  | loadModel
  | warnModel
  | loadPretrained
  | loadOptim
  | warnOptim
deriving DecidableEq

/-- The initialisation block (train.py lines 210-231): with `--load-from`
set, look for `model.pth` and `optim.pth` in the resume directory
(`files` is the set of file names present there); each miss warns, a
model miss additionally falls back to pretrained weights when
`--pretrained` is set.  Without `--load-from`, `--pretrained` alone
loads pretrained weights. -/
def initActions (cfg : Config) (files : List String) : List InitAction :=
  match cfg.load_from with
  | some _ =>
    (if "model.pth" ∈ files then [InitAction.loadModel]
     else InitAction.warnModel ::
       (if cfg.pretrained then [InitAction.loadPretrained] else []))
    ++ (if "optim.pth" ∈ files then [InitAction.loadOptim]
        else [InitAction.warnOptim])
  | none => if cfg.pretrained then [InitAction.loadPretrained] else []

/-- The file names `torch.save` ever targets in `train` (train.py lines
107-118, 143-154), relative to the `--save-to` directory. -/
def checkpointFiles : List String :=
  ["model_best_loss_train.pth", "optim_best_loss_train.pth",
   "model_best_acc_train.pth", "optim_best_acc_train.pth",
   "model_best_loss_valid.pth", "optim_best_loss_valid.pth",
   "model_best_acc_valid.pth", "optim_best_acc_valid.pth"]

/-- The file names the resume path reads (train.py lines 211-212),
relative to the `--load-from` directory. -/
def resumeFiles : List String := ["model.pth", "optim.pth"]

/-- The inputs `main` draws from the outside world: the rows
`(column 0, column 1) = (path, class name)` of the two CSV files, the
file names present in the resume directory, and the per-epoch batch
outcomes delivered by the data loaders. -/
structure Env where
  train_rows : List (String × String)
  valid_rows : List (String × String)
  load_dir_files : List String
  batches : Nat → List BatchResult × List BatchResult

/-- Everything observable about a completed `main` run. -/
structure RunOutput where
  mp : List (String × Nat)
  train_labels : List Nat
  valid_labels : List Nat
  optimizer : AdamSpec
  init_actions : List InitAction
  trace : List Ev
  final : Option Best
deriving DecidableEq

/-- The `main` pipeline (train.py lines 160-243): build the class-id
mapping from the training split, construct both label lists eagerly
(lines 172-173; a `KeyError` there kills the process before any data
loader or the `train` call exists, returning an empty event trace and no
output), then build the optimizer, run the initialisation block and the
epoch loop. -/
def mainRun (cfg : Config) (env : Env) : List Ev × Option RunOutput :=
  let train_classes := env.train_rows.map Prod.snd
  let valid_classes := env.valid_rows.map Prod.snd
  let mp := classes_mp train_classes
  match buildLabels mp train_classes, buildLabels mp valid_classes with
  | some tl, some vl =>
    let r := runEpochs env.batches cfg.epochs
    (r.1, some
      { mp := mp
        train_labels := tl
        valid_labels := vl
        optimizer := buildOptimizer cfg
        init_actions := initActions cfg env.load_dir_files
        trace := r.1
        final := r.2 })
  | _, _ => ([], none)

/-- The sequence of completed passes in a trace, in order. -/
def passes (tr : List Ev) : List Split :=
  tr.filterMap (fun e => match e with
    | Ev.pass s => some s
    | _ => none)

/-- Extracts the per-pass metric reports from a trace, in order. -/
def reports (tr : List Ev) : List (Split × ℚ × ℚ) :=
  tr.filterMap (fun e => match e with
    | Ev.report s l a => some (s, l, a)
    | _ => none)

/-! ### Helper lemmas about the pass accumulators and the epoch step. -/

/-- The accuracy value `100 * correct / total` of a pass with a nonzero
sample count. -/
def accOf (t : PassTotals) : ℚ := 100 * (t.correct : ℚ) / (t.total : ℚ)

theorem foldl_accumBatch (bs : List BatchResult) (t : PassTotals) :
    bs.foldl accumBatch t =
      ⟨t.total + (bs.map BatchResult.size).sum,
       t.correct + (bs.map BatchResult.correct).sum,
       t.running_loss + (bs.map BatchResult.loss).sum⟩ := by
  induction bs generalizing t with
  | nil => cases t; simp
  | cons hd tl ih => simp [List.foldl, accumBatch, ih, add_assoc]

theorem runPass_eq (bs : List BatchResult) :
    runPass bs =
      ⟨(bs.map BatchResult.size).sum, (bs.map BatchResult.correct).sum,
       (bs.map BatchResult.loss).sum⟩ := by
  simpa [runPass, initTotals] using foldl_accumBatch bs initTotals

theorem runningAcc_of_ne (t : PassTotals) (h : t.total ≠ 0) :
    runningAcc t = some (accOf t) := by
  simp [runningAcc, accOf, h]

theorem runningAcc_total_ne (t : PassTotals) (a : ℚ)
    (h : runningAcc t = some a) : t.total ≠ 0 := by
  by_contra h0
  simp [runningAcc, h0] at h

theorem epochStep_eq (tb vb : List BatchResult) (b : Best)
    (h1 : (runPass tb).total ≠ 0) (h2 : (runPass vb).total ≠ 0) :
    epochStep tb vb b =
      (Ev.pass Split.train ::
        ((checkLoss b.loss_train (runPass tb).running_loss
            "model_best_loss_train.pth" "optim_best_loss_train.pth").2.map Ev.save ++
         (checkAcc b.acc_train (accOf (runPass tb))
            "model_best_acc_train.pth" "optim_best_acc_train.pth").2.map Ev.save ++
         (Ev.report Split.train (runPass tb).running_loss (accOf (runPass tb)) ::
          Ev.pass Split.valid ::
          ((checkLoss b.loss_valid (runPass vb).running_loss
              "model_best_loss_valid.pth" "optim_best_loss_valid.pth").2.map Ev.save ++
           (checkAcc b.acc_valid (accOf (runPass vb))
              "model_best_acc_valid.pth" "optim_best_acc_valid.pth").2.map Ev.save ++
           [Ev.report Split.valid (runPass vb).running_loss (accOf (runPass vb))]))),
       some ⟨(checkLoss b.loss_train (runPass tb).running_loss
                "model_best_loss_train.pth" "optim_best_loss_train.pth").1,
             (checkLoss b.loss_valid (runPass vb).running_loss
                "model_best_loss_valid.pth" "optim_best_loss_valid.pth").1,
             (checkAcc b.acc_train (accOf (runPass tb))
                "model_best_acc_train.pth" "optim_best_acc_train.pth").1,
             (checkAcc b.acc_valid (accOf (runPass vb))
                "model_best_acc_valid.pth" "optim_best_acc_valid.pth").1⟩) := by
  rw [epochStep, runningAcc_of_ne _ h1]
  dsimp only
  rw [runningAcc_of_ne _ h2]

theorem epochStep_some (tb vb : List BatchResult) (b b' : Best)
    (h : (epochStep tb vb b).2 = some b') :
    (runPass tb).total ≠ 0 ∧ (runPass vb).total ≠ 0 ∧
    b' = ⟨(checkLoss b.loss_train (runPass tb).running_loss
             "model_best_loss_train.pth" "optim_best_loss_train.pth").1,
          (checkLoss b.loss_valid (runPass vb).running_loss
             "model_best_loss_valid.pth" "optim_best_loss_valid.pth").1,
          (checkAcc b.acc_train (accOf (runPass tb))
             "model_best_acc_train.pth" "optim_best_acc_train.pth").1,
          (checkAcc b.acc_valid (accOf (runPass vb))
             "model_best_acc_valid.pth" "optim_best_acc_valid.pth").1⟩ := by
  rw [epochStep] at h
  rcases hta : runningAcc (runPass tb) with _ | accT
  · rw [hta] at h; dsimp only at h; exact absurd h (by simp)
  rw [hta] at h; dsimp only at h
  rcases htv : runningAcc (runPass vb) with _ | accV
  · rw [htv] at h; dsimp only at h; exact absurd h (by simp)
  rw [htv] at h; dsimp only at h
  have h1 := runningAcc_total_ne _ _ hta
  have h2 := runningAcc_total_ne _ _ htv
  have ea : accT = accOf (runPass tb) :=
    Option.some_inj.mp (hta.symm.trans (runningAcc_of_ne _ h1))
  have ev : accV = accOf (runPass vb) :=
    Option.some_inj.mp (htv.symm.trans (runningAcc_of_ne _ h2))
  refine ⟨h1, h2, ?_⟩
  have hb := Option.some_inj.mp h
  rw [← hb, ea, ev]

theorem runEpochs_succ (data : Nat → List BatchResult × List BatchResult)
    (n : Nat) (b' : Best) (h : (runEpochs data (n + 1)).2 = some b') :
    ∃ b, (runEpochs data n).2 = some b ∧
      (epochStep (data n).1 (data n).2 b).2 = some b' := by
  rcases hn : runEpochs data n with ⟨tr, ob⟩
  cases ob with
  | none => rw [runEpochs, hn] at h; simp at h
  | some b =>
    refine ⟨b, rfl, ?_⟩
    rw [runEpochs, hn] at h
    simpa using h

theorem checkLoss_files (best : WithTop ℚ) (r : ℚ) (f1 f2 : String) :
    (checkLoss best r f1 f2).2 = [f1, f2] ∨ (checkLoss best r f1 f2).2 = [] := by
  unfold checkLoss; split <;> simp

theorem checkAcc_files (best r : ℚ) (f1 f2 : String) :
    (checkAcc best r f1 f2).2 = [f1, f2] ∨ (checkAcc best r f1 f2).2 = [] := by
  unfold checkAcc; split <;> simp

theorem mem_checkLoss_files (best : WithTop ℚ) (r : ℚ) (f1 f2 g : String)
    (h : g ∈ (checkLoss best r f1 f2).2) : g = f1 ∨ g = f2 := by
  unfold checkLoss at h
  split at h <;> simp at h <;> tauto

theorem mem_checkAcc_files (best r : ℚ) (f1 f2 g : String)
    (h : g ∈ (checkAcc best r f1 f2).2) : g = f1 ∨ g = f2 := by
  unfold checkAcc at h
  split at h <;> simp at h <;> tauto

theorem save_mem_epochStep (tb vb : List BatchResult) (b : Best) (f : String)
    (h : Ev.save f ∈ (epochStep tb vb b).1) : f ∈ checkpointFiles := by
  rw [epochStep] at h
  rcases hta : runningAcc (runPass tb) with _ | accT <;>
    rw [hta] at h <;> dsimp only at h
  · simp only [List.mem_cons, List.mem_map] at h
    rcases h with h | ⟨g, hg, hgf⟩
    · exact absurd h (by simp)
    · obtain rfl : g = f := by injection hgf
      rcases mem_checkLoss_files _ _ _ _ _ hg with rfl | rfl <;>
        simp [checkpointFiles]
  · rcases htv : runningAcc (runPass vb) with _ | accV <;>
      rw [htv] at h <;> dsimp only at h <;>
      simp only [List.mem_cons, List.mem_append, List.mem_map] at h <;>
      [rcases h with h | ⟨⟨g, hg, hgf⟩ | ⟨g, hg, hgf⟩⟩ | h | h | ⟨g, hg, hgf⟩;
       rcases h with h | ⟨⟨g, hg, hgf⟩ | ⟨g, hg, hgf⟩⟩ | h | h |
         ⟨⟨g, hg, hgf⟩ | ⟨g, hg, hgf⟩⟩ | h] <;>
      first
        | exact absurd h (by simp)
        | (obtain rfl : g = f := by injection hgf
           first
             | (rcases mem_checkLoss_files _ _ _ _ _ hg with rfl | rfl <;>
                  simp [checkpointFiles])
             | (rcases mem_checkAcc_files _ _ _ _ _ hg with rfl | rfl <;>
                  simp [checkpointFiles]))

theorem save_mem_runEpochs (data : Nat → List BatchResult × List BatchResult)
    (n : Nat) (f : String) (h : Ev.save f ∈ (runEpochs data n).1) :
    f ∈ checkpointFiles := by
  induction n with
  | zero => simp [runEpochs] at h
  | succ n ih =>
    rw [runEpochs] at h
    rcases hn : runEpochs data n with ⟨tr, ob⟩
    rw [hn] at h
    cases ob with
    | none => exact ih (by rw [hn]; exact h)
    | some b =>
      rcases List.mem_append.mp h with h | h
      · exact ih (by rw [hn]; exact h)
      · exact save_mem_epochStep _ _ _ _ h

theorem passes_append (l1 l2 : List Ev) :
    passes (l1 ++ l2) = passes l1 ++ passes l2 := by
  simp [passes]

theorem passes_map_save (l : List String) : passes (l.map Ev.save) = [] := by
  induction l with
  | nil => rfl
  | cons hd tl ih => simpa [passes, List.filterMap_cons] using ih

theorem passes_epochStep (tb vb : List BatchResult) (b : Best) (b' : Best)
    (h : (epochStep tb vb b).2 = some b') :
    passes (epochStep tb vb b).1 = [Split.train, Split.valid] := by
  obtain ⟨h1, h2, -⟩ := epochStep_some tb vb b b' h
  rw [epochStep_eq tb vb b h1 h2]
  rw [show ∀ tr : List Ev, passes tr =
        tr.filterMap (fun e => match e with
          | Ev.pass s => some s
          | _ => none) from fun _ => rfl]
  rw [List.filterMap_cons, List.filterMap_append, List.filterMap_append,
    List.filterMap_cons, List.filterMap_cons, List.filterMap_append,
    List.filterMap_append, List.filterMap_cons, List.filterMap_nil]
  have hs : ∀ l : List String,
      (l.map Ev.save).filterMap (fun e => match e with
        | Ev.pass s => some s
        | _ => none) = [] := passes_map_save
  rw [hs, hs, hs, hs]
  rfl

theorem passes_runEpochs (data : Nat → List BatchResult × List BatchResult)
    (n : Nat) (b : Best) (h : (runEpochs data n).2 = some b) :
    passes (runEpochs data n).1 =
      (List.replicate n [Split.train, Split.valid]).join := by
  induction n generalizing b with
  | zero => rfl
  | succ n ih =>
    rcases hn : runEpochs data n with ⟨tr, ob⟩
    rw [runEpochs, hn] at h ⊢
    cases ob with
    | none => simp at h
    | some b0 =>
      dsimp only at h ⊢
      have ihn := ih b0 (by rw [hn])
      rw [hn] at ihn
      dsimp only at ihn
      rw [passes_append, ihn, passes_epochStep _ _ _ _ h,
        List.replicate_succ']
      simp

/-! ### Lemmas about the class-id mapping and label construction. -/

theorem classes_mp_keys (tc : List String) :
    (classes_mp tc).map Prod.fst = tc.dedup := by
  unfold classes_mp
  exact List.map_fst_zip _ _ (by simp)

theorem classes_mp_ids (tc : List String) :
    (classes_mp tc).map Prod.snd = List.range tc.dedup.length := by
  unfold classes_mp
  exact List.map_snd_zip _ _ (by simp)

theorem classes_mp_length (tc : List String) :
    (classes_mp tc).length = tc.dedup.length := by
  unfold classes_mp
  simp

theorem dedup_length_eq_card (tc : List String) :
    tc.dedup.length = tc.toFinset.card := by
  have h : tc.dedup.toFinset = tc.toFinset :=
    List.toFinset.ext_iff.mpr (fun x => List.mem_dedup)
  rw [← h, List.toFinset_card_of_nodup (List.nodup_dedup tc)]

theorem lookup_isSome_of_mem_keys {β : Type} (mp : List (String × β))
    (name : String) (h : name ∈ mp.map Prod.fst) :
    ∃ v, mp.lookup name = some v := by
  induction mp with
  | nil => simp at h
  | cons hd tl ih =>
    by_cases he : name = hd.1
    · have hb : (name == hd.1) = true := beq_iff_eq.mpr he
      exact ⟨hd.2, by simp [List.lookup, hb]⟩
    · have hb : (name == hd.1) = false := beq_eq_false_iff_ne.mpr he
      have h0 : name ∈ tl.map Prod.fst := by
        rcases List.mem_cons.mp h with h1 | h1
        · exact absurd h1 he
        · exact h1
      obtain ⟨v, hv⟩ := ih h0
      exact ⟨v, by simp [List.lookup, hb, hv]⟩

theorem classes_mp_lookup_total (tc : List String) (name : String)
    (h : name ∈ tc) : ∃ v, (classes_mp tc).lookup name = some v := by
  apply lookup_isSome_of_mem_keys
  rw [classes_mp_keys]
  exact List.mem_dedup.mpr h

theorem buildLabels_some (mp : List (String × Nat)) (names : List String)
    (h : ∀ n ∈ names, ∃ v, mp.lookup n = some v) :
    ∃ l, buildLabels mp names = some l := by
  induction names with
  | nil => exact ⟨[], rfl⟩
  | cons hd tl ih =>
    obtain ⟨v, hv⟩ := h hd (List.mem_cons_self hd tl)
    obtain ⟨l, hl⟩ := ih (fun n hn => h n (List.mem_cons_of_mem hd hn))
    exact ⟨v :: l, by rw [buildLabels, hv, hl]⟩

theorem buildLabels_spec (mp : List (String × Nat)) (names : List String)
    (l : List Nat) (h : buildLabels mp names = some l) :
    l.length = names.length ∧
    ∀ i (hi : i < l.length) (hn : i < names.length),
      mp.lookup (names.get ⟨i, hn⟩) = some (l.get ⟨i, hi⟩) := by
  induction names generalizing l with
  | nil =>
    rw [buildLabels] at h
    obtain rfl : l = [] := by simpa using h.symm
    exact ⟨rfl, fun i hi hn => absurd hi (by simp)⟩
  | cons hd tl ih =>
    rw [buildLabels] at h
    rcases hv : mp.lookup hd with _ | v <;> rw [hv] at h
    · simp at h
    rcases hl : buildLabels mp tl with _ | l0 <;> rw [hl] at h
    · simp at h
    obtain rfl : l = v :: l0 := by simpa using h.symm
    obtain ⟨hlen, hget⟩ := ih l0 hl
    refine ⟨by simpa using hlen, ?_⟩
    intro i hi hn
    cases i with
    | zero => simpa using hv
    | succ j =>
      have hj : j < l0.length := by simpa using hi
      have hjn : j < tl.length := by simpa using hn
      simpa using hget j hj hjn

theorem buildLabels_none (mp : List (String × Nat)) (names : List String)
    (n : String) (hmem : n ∈ names) (h : mp.lookup n = none) :
    buildLabels mp names = none := by
  induction names with
  | nil => simp at hmem
  | cons hd tl ih =>
    rw [buildLabels]
    rcases List.mem_cons.mp hmem with h0 | h0
    · rw [← h0, h]
    · rw [ih h0]
      rcases mp.lookup hd with _ | v <;> rfl

theorem reports_map_save (l : List String) : reports (l.map Ev.save) = [] := by
  induction l with
  | nil => rfl
  | cons hd tl ih => simpa [reports, List.filterMap_cons] using ih

theorem reports_epochStep (tb vb : List BatchResult) (b : Best)
    (h1 : (runPass tb).total ≠ 0) (h2 : (runPass vb).total ≠ 0) :
    reports (epochStep tb vb b).1 =
      [(Split.train, (runPass tb).running_loss, accOf (runPass tb)),
       (Split.valid, (runPass vb).running_loss, accOf (runPass vb))] := by
  rw [epochStep_eq tb vb b h1 h2]
  rw [show ∀ tr : List Ev, reports tr =
        tr.filterMap (fun e => match e with
          | Ev.report s l a => some (s, l, a)
          | _ => none) from fun _ => rfl]
  rw [List.filterMap_cons, List.filterMap_append, List.filterMap_append,
    List.filterMap_cons, List.filterMap_cons, List.filterMap_append,
    List.filterMap_append, List.filterMap_cons, List.filterMap_nil]
  have hs : ∀ l : List String,
      (l.map Ev.save).filterMap (fun e => match e with
        | Ev.report s l a => some (s, l, a)
        | _ => none) = [] := reports_map_save
  rw [hs, hs, hs, hs]
  rfl

/-! ### Claim theorems. -/

/-- C5: for every pass (train or valid) of every epoch, the running loss
equals the exact sum, in batch-delivery order, of the per-batch loss
values (never divided by the batch count), and the reported accuracy
equals `100 * correct / total` where `correct` and `total` are
accumulated from zero at the start of that pass only — the reported
metrics of an epoch are functions of that epoch's own batches alone,
never carried over from a previous pass or epoch (the right-hand side
below does not mention the best-so-far state or the other pass). -/
theorem running_metrics_per_pass :
    (∀ bs : List BatchResult,
      runPass bs =
        ⟨(bs.map BatchResult.size).sum, (bs.map BatchResult.correct).sum,
         (bs.map BatchResult.loss).sum⟩) ∧
    (∀ (tb vb : List BatchResult) (b : Best),
      (runPass tb).total ≠ 0 → (runPass vb).total ≠ 0 →
      reports (epochStep tb vb b).1 =
        [(Split.train, (tb.map BatchResult.loss).sum,
           100 * ((tb.map BatchResult.correct).sum : ℚ) /
             ((tb.map BatchResult.size).sum : ℚ)),
         (Split.valid, (vb.map BatchResult.loss).sum,
           100 * ((vb.map BatchResult.correct).sum : ℚ) /
             ((vb.map BatchResult.size).sum : ℚ))]) := by
  refine ⟨runPass_eq, ?_⟩
  intro tb vb b h1 h2
  rw [reports_epochStep tb vb b h1 h2]
  simp [accOf, runPass_eq]

/-- Witness for C5 at a concrete epoch: one train batch of size 4 with 2
correct and loss 1, one valid batch of size 2 with 1 correct and loss 3. -/
theorem running_metrics_per_pass_witness :
    (runPass [⟨4, 2, 1⟩]).total ≠ 0 ∧ (runPass [⟨2, 1, 3⟩]).total ≠ 0 ∧
    reports (epochStep [⟨4, 2, 1⟩] [⟨2, 1, 3⟩] Best.init).1 =
      [(Split.train, ([(⟨4, 2, 1⟩ : BatchResult)].map BatchResult.loss).sum,
         100 * (([(⟨4, 2, 1⟩ : BatchResult)].map BatchResult.correct).sum : ℚ) /
           (([(⟨4, 2, 1⟩ : BatchResult)].map BatchResult.size).sum : ℚ)),
       (Split.valid, ([(⟨2, 1, 3⟩ : BatchResult)].map BatchResult.loss).sum,
         100 * (([(⟨2, 1, 3⟩ : BatchResult)].map BatchResult.correct).sum : ℚ) /
           (([(⟨2, 1, 3⟩ : BatchResult)].map BatchResult.size).sum : ℚ))] :=
  ⟨by decide, by decide,
   running_metrics_per_pass.2 [⟨4, 2, 1⟩] [⟨2, 1, 3⟩] Best.init
     (by decide) (by decide)⟩

/-- C6: the four best-so-far scalars start at `+infinity` for the two
loss slots and `0` for the two accuracy slots, and across consecutive
epochs of any run each is monotone: a stored best loss never increases
(when it changes, it changes to a strictly smaller value) and a stored
best accuracy never decreases (when it changes, it changes to a strictly
larger value). -/
theorem best_state_init_and_monotone :
    Best.init.loss_train = ⊤ ∧ Best.init.loss_valid = ⊤ ∧
    Best.init.acc_train = 0 ∧ Best.init.acc_valid = 0 ∧
    ∀ (data : Nat → List BatchResult × List BatchResult) (n : Nat)
      (b b' : Best),
      (runEpochs data n).2 = some b → (runEpochs data (n + 1)).2 = some b' →
      (b'.loss_train ≤ b.loss_train ∧
        (b'.loss_train ≠ b.loss_train → b'.loss_train < b.loss_train)) ∧
      (b'.loss_valid ≤ b.loss_valid ∧
        (b'.loss_valid ≠ b.loss_valid → b'.loss_valid < b.loss_valid)) ∧
      (b.acc_train ≤ b'.acc_train ∧
        (b'.acc_train ≠ b.acc_train → b.acc_train < b'.acc_train)) ∧
      (b.acc_valid ≤ b'.acc_valid ∧
        (b'.acc_valid ≠ b.acc_valid → b.acc_valid < b'.acc_valid)) := by
  refine ⟨rfl, rfl, rfl, rfl, ?_⟩
  intro data n b b' hb hb'
  obtain ⟨b0, hb0, hstep⟩ := runEpochs_succ data n b' hb'
  obtain rfl : b = b0 := Option.some_inj.mp (hb.symm.trans hb0)
  obtain ⟨h1, h2, hbe⟩ := epochStep_some _ _ _ _ hstep
  subst hbe
  refine ⟨?_, ?_, ?_, ?_⟩
  · simp only [checkLoss]
    by_cases hc : ((runPass (data n).1).running_loss : WithTop ℚ) < b.loss_train
    · rw [if_pos hc]; exact ⟨le_of_lt hc, fun _ => hc⟩
    · rw [if_neg hc]; exact ⟨le_refl _, fun hne => absurd rfl hne⟩
  · simp only [checkLoss]
    by_cases hc : ((runPass (data n).2).running_loss : WithTop ℚ) < b.loss_valid
    · rw [if_pos hc]; exact ⟨le_of_lt hc, fun _ => hc⟩
    · rw [if_neg hc]; exact ⟨le_refl _, fun hne => absurd rfl hne⟩
  · simp only [checkAcc]
    by_cases hc : accOf (runPass (data n).1) > b.acc_train
    · rw [if_pos hc]; exact ⟨le_of_lt hc, fun _ => hc⟩
    · rw [if_neg hc]; exact ⟨le_refl _, fun hne => absurd rfl hne⟩
  · simp only [checkAcc]
    by_cases hc : accOf (runPass (data n).2) > b.acc_valid
    · rw [if_pos hc]; exact ⟨le_of_lt hc, fun _ => hc⟩
    · rw [if_neg hc]; exact ⟨le_refl _, fun hne => absurd rfl hne⟩

/-- Witness for C6 at epochs 0 and 1 of a concrete run. -/
theorem best_state_init_and_monotone_witness :
    (runEpochs (fun _ => ([⟨4, 2, 1⟩], [⟨4, 3, 2⟩])) 0).2 = some Best.init ∧
    (runEpochs (fun _ => ([⟨4, 2, 1⟩], [⟨4, 3, 2⟩])) 1).2 =
      some ⟨((1 : ℚ) : WithTop ℚ), ((2 : ℚ) : WithTop ℚ), 50, 75⟩ ∧
    ((((1 : ℚ) : WithTop ℚ) ≤ Best.init.loss_train ∧
       (((1 : ℚ) : WithTop ℚ) ≠ Best.init.loss_train →
         ((1 : ℚ) : WithTop ℚ) < Best.init.loss_train)) ∧
     (((2 : ℚ) : WithTop ℚ) ≤ Best.init.loss_valid ∧
       (((2 : ℚ) : WithTop ℚ) ≠ Best.init.loss_valid →
         ((2 : ℚ) : WithTop ℚ) < Best.init.loss_valid)) ∧
     (Best.init.acc_train ≤ (50 : ℚ) ∧
       ((50 : ℚ) ≠ Best.init.acc_train → Best.init.acc_train < (50 : ℚ))) ∧
     (Best.init.acc_valid ≤ (75 : ℚ) ∧
       ((75 : ℚ) ≠ Best.init.acc_valid → Best.init.acc_valid < (75 : ℚ)))) := by
  have h0 : (runEpochs (fun _ => ([⟨4, 2, 1⟩], [⟨4, 3, 2⟩])) 0).2 =
      some Best.init := rfl
  have h1 : (runEpochs (fun _ => ([⟨4, 2, 1⟩], [⟨4, 3, 2⟩])) 1).2 =
      some ⟨((1 : ℚ) : WithTop ℚ), ((2 : ℚ) : WithTop ℚ), 50, 75⟩ := by
    norm_num [runEpochs, epochStep, runPass, accumBatch, initTotals,
      runningAcc, checkLoss, checkAcc, Best.init, WithTop.coe_lt_top,
      lt_top_iff_ne_top]
  exact ⟨h0, h1,
    best_state_init_and_monotone.2.2.2.2 (fun _ => ([⟨4, 2, 1⟩], [⟨4, 3, 2⟩]))
      0 Best.init ⟨((1 : ℚ) : WithTop ℚ), ((2 : ℚ) : WithTop ℚ), 50, 75⟩ h0 h1⟩

/-- C7: the validation pass leaves the model parameters and the
optimizer state unchanged for every model and optimizer: it sets the
model to evaluation mode and is a pure forward-and-score pass whose only
outcome is the accumulated totals.  Gradient-clear, backward and
optimizer-step operations do not occur in it: `valid_pass` holds for an
arbitrary optimizer state type `O`, whose value passes through
untouched. -/
theorem valid_pass_frame {P O β : Type} (forwardEval : P → β → BatchResult)
    (m : ModelState P) (o : O) (batches : List β) :
    (valid_pass forwardEval m o batches).1.params = m.params ∧
    (valid_pass forwardEval m o batches).2.1 = o ∧
    (valid_pass forwardEval m o batches).1.training = false ∧
    (valid_pass forwardEval m o batches).2.2 =
      runPass (batches.map (forwardEval m.params)) :=
  ⟨rfl, rfl, rfl, rfl⟩

/-- C8: the momentum option has no observable effect: two runs identical
in every input and configuration value except the momentum value build
the same optimizer and produce identical observable behavior, because
`optim.Adam(model.parameters(), args.lr)` never consumes
`args.momentum`. -/
theorem momentum_has_no_observable_effect (cfg : Config) (env : Env)
    (m1 m2 : ℚ) :
    buildOptimizer { cfg with momentum := m1 } =
      buildOptimizer { cfg with momentum := m2 } ∧
    mainRun { cfg with momentum := m1 } env =
      mainRun { cfg with momentum := m2 } env := by
  cases cfg
  exact ⟨rfl, rfl⟩

/-- C10: the accuracy expression `100 * correct / total` is well-defined
exactly when the pass delivered at least one sample; an empty training
or validation split leaves `total = 0` at the end of the pass and the
epoch aborts on the division by zero instead of reporting an accuracy. -/
theorem accuracy_division_unguarded :
    (∀ t : PassTotals, (runningAcc t).isSome ↔ 0 < t.total) ∧
    (runPass []).total = 0 ∧
    (∀ (vb : List BatchResult) (b : Best), (epochStep [] vb b).2 = none) ∧
    (∀ (tb : List BatchResult) (b : Best), (runPass tb).total ≠ 0 →
      (epochStep tb [] b).2 = none) := by
  refine ⟨?_, rfl, ?_, ?_⟩
  · intro t
    unfold runningAcc
    split <;> rename_i h
    · simp [h]
    · simp [Nat.pos_of_ne_zero h]
  · intro vb b
    rw [epochStep]
    rw [show runningAcc (runPass []) = none from rfl]
  · intro tb b h
    rw [epochStep, runningAcc_of_ne _ h]
    dsimp only
    rw [show runningAcc (runPass []) = none from rfl]

/-- Witness for C10: a nonempty train pass followed by an empty valid
split aborts the epoch. -/
theorem accuracy_division_unguarded_witness :
    (runPass [⟨4, 2, 1⟩]).total ≠ 0 ∧
    (epochStep [⟨4, 2, 1⟩] [] Best.init).2 = none :=
  ⟨by decide,
   accuracy_division_unguarded.2.2.2 [⟨4, 2, 1⟩] Best.init (by decide)⟩

/-- C1: for every epoch and each of the four checkpoint slots, the
slot's stored best value is updated and its model and optimizer files
are written if and only if the pass's metric is strictly better than the
slot's previous stored value (strictly lower for loss, strictly higher
for accuracy); when the comparison fails (in particular on an equal
metric) the slot keeps its value and neither of its files is written.
Each slot's condition mentions only that slot's previous value and its
own pass metric, so the four checks are independent of one another. -/
theorem checkpoint_update_iff_strict_improvement
    (tb vb : List BatchResult) (b : Best) (tr : List Ev) (b' : Best)
    (h1 : (runPass tb).total ≠ 0) (h2 : (runPass vb).total ≠ 0)
    (h : epochStep tb vb b = (tr, some b')) :
    ((b'.loss_train = ((runPass tb).running_loss : WithTop ℚ) ∧
        Ev.save "model_best_loss_train.pth" ∈ tr ∧
        Ev.save "optim_best_loss_train.pth" ∈ tr) ↔
      ((runPass tb).running_loss : WithTop ℚ) < b.loss_train) ∧
    (¬ ((runPass tb).running_loss : WithTop ℚ) < b.loss_train →
      b'.loss_train = b.loss_train ∧
      Ev.save "model_best_loss_train.pth" ∉ tr ∧
      Ev.save "optim_best_loss_train.pth" ∉ tr) ∧
    ((b'.acc_train = accOf (runPass tb) ∧
        Ev.save "model_best_acc_train.pth" ∈ tr ∧
        Ev.save "optim_best_acc_train.pth" ∈ tr) ↔
      accOf (runPass tb) > b.acc_train) ∧
    (¬ accOf (runPass tb) > b.acc_train →
      b'.acc_train = b.acc_train ∧
      Ev.save "model_best_acc_train.pth" ∉ tr ∧
      Ev.save "optim_best_acc_train.pth" ∉ tr) ∧
    ((b'.loss_valid = ((runPass vb).running_loss : WithTop ℚ) ∧
        Ev.save "model_best_loss_valid.pth" ∈ tr ∧
        Ev.save "optim_best_loss_valid.pth" ∈ tr) ↔
      ((runPass vb).running_loss : WithTop ℚ) < b.loss_valid) ∧
    (¬ ((runPass vb).running_loss : WithTop ℚ) < b.loss_valid →
      b'.loss_valid = b.loss_valid ∧
      Ev.save "model_best_loss_valid.pth" ∉ tr ∧
      Ev.save "optim_best_loss_valid.pth" ∉ tr) ∧
    ((b'.acc_valid = accOf (runPass vb) ∧
        Ev.save "model_best_acc_valid.pth" ∈ tr ∧
        Ev.save "optim_best_acc_valid.pth" ∈ tr) ↔
      accOf (runPass vb) > b.acc_valid) ∧
    (¬ accOf (runPass vb) > b.acc_valid →
      b'.acc_valid = b.acc_valid ∧
      Ev.save "model_best_acc_valid.pth" ∉ tr ∧
      Ev.save "optim_best_acc_valid.pth" ∉ tr) := by
  have he := (epochStep_eq tb vb b h1 h2).symm.trans h
  injection he with htr hbb
  injection hbb with hbb
  subst htr
  subst hbb
  by_cases hc1 : ((runPass tb).running_loss : WithTop ℚ) < b.loss_train <;>
    by_cases hc2 : accOf (runPass tb) > b.acc_train <;>
    by_cases hc3 : ((runPass vb).running_loss : WithTop ℚ) < b.loss_valid <;>
    by_cases hc4 : accOf (runPass vb) > b.acc_valid <;>
    simp [checkLoss, checkAcc, hc1, hc2, hc3, hc4]

/-- Concrete train batches for the C1 witness: loss 1, accuracy 50. -/
def c1_tb : List BatchResult := [⟨4, 2, 1⟩]

/-- Concrete valid batches for the C1 witness: loss 2, accuracy 75. -/
def c1_vb : List BatchResult := [⟨4, 3, 2⟩]

/-- Concrete previous best state for the C1 witness: ties on the train
accuracy slot (50 vs 50) and the valid loss slot (2 vs 2). -/
def c1_b : Best := ⟨⊤, ((2 : ℚ) : WithTop ℚ), 50, 0⟩

/-- Expected epoch trace for the C1 witness: only the two strictly
improved slots write their files. -/
def c1_tr : List Ev :=
  [Ev.pass Split.train, Ev.save "model_best_loss_train.pth",
   Ev.save "optim_best_loss_train.pth", Ev.report Split.train 1 50,
   Ev.pass Split.valid, Ev.save "model_best_acc_valid.pth",
   Ev.save "optim_best_acc_valid.pth", Ev.report Split.valid 2 75]

/-- Expected best state after the C1 witness epoch. -/
def c1_best : Best := ⟨((1 : ℚ) : WithTop ℚ), ((2 : ℚ) : WithTop ℚ), 50, 75⟩

/-- Witness for C1 at a concrete epoch with one improvement and one tie
per split: the tied slots keep their values and write nothing. -/
theorem checkpoint_update_iff_strict_improvement_witness :
    (runPass c1_tb).total ≠ 0 ∧ (runPass c1_vb).total ≠ 0 ∧
    epochStep c1_tb c1_vb c1_b = (c1_tr, some c1_best) ∧
    (((c1_best.loss_train = ((runPass c1_tb).running_loss : WithTop ℚ) ∧
        Ev.save "model_best_loss_train.pth" ∈ c1_tr ∧
        Ev.save "optim_best_loss_train.pth" ∈ c1_tr) ↔
      ((runPass c1_tb).running_loss : WithTop ℚ) < c1_b.loss_train) ∧
    (¬ ((runPass c1_tb).running_loss : WithTop ℚ) < c1_b.loss_train →
      c1_best.loss_train = c1_b.loss_train ∧
      Ev.save "model_best_loss_train.pth" ∉ c1_tr ∧
      Ev.save "optim_best_loss_train.pth" ∉ c1_tr) ∧
    ((c1_best.acc_train = accOf (runPass c1_tb) ∧
        Ev.save "model_best_acc_train.pth" ∈ c1_tr ∧
        Ev.save "optim_best_acc_train.pth" ∈ c1_tr) ↔
      accOf (runPass c1_tb) > c1_b.acc_train) ∧
    (¬ accOf (runPass c1_tb) > c1_b.acc_train →
      c1_best.acc_train = c1_b.acc_train ∧
      Ev.save "model_best_acc_train.pth" ∉ c1_tr ∧
      Ev.save "optim_best_acc_train.pth" ∉ c1_tr) ∧
    ((c1_best.loss_valid = ((runPass c1_vb).running_loss : WithTop ℚ) ∧
        Ev.save "model_best_loss_valid.pth" ∈ c1_tr ∧
        Ev.save "optim_best_loss_valid.pth" ∈ c1_tr) ↔
      ((runPass c1_vb).running_loss : WithTop ℚ) < c1_b.loss_valid) ∧
    (¬ ((runPass c1_vb).running_loss : WithTop ℚ) < c1_b.loss_valid →
      c1_best.loss_valid = c1_b.loss_valid ∧
      Ev.save "model_best_loss_valid.pth" ∉ c1_tr ∧
      Ev.save "optim_best_loss_valid.pth" ∉ c1_tr) ∧
    ((c1_best.acc_valid = accOf (runPass c1_vb) ∧
        Ev.save "model_best_acc_valid.pth" ∈ c1_tr ∧
        Ev.save "optim_best_acc_valid.pth" ∈ c1_tr) ↔
      accOf (runPass c1_vb) > c1_b.acc_valid) ∧
    (¬ accOf (runPass c1_vb) > c1_b.acc_valid →
      c1_best.acc_valid = c1_b.acc_valid ∧
      Ev.save "model_best_acc_valid.pth" ∉ c1_tr ∧
      Ev.save "optim_best_acc_valid.pth" ∉ c1_tr)) := by
  have h1 : (runPass c1_tb).total ≠ 0 := by decide
  have h2 : (runPass c1_vb).total ≠ 0 := by decide
  have h3 : epochStep c1_tb c1_vb c1_b = (c1_tr, some c1_best) := by
    norm_num [epochStep, runPass, accumBatch, initTotals, runningAcc,
      checkLoss, checkAcc, c1_tb, c1_vb, c1_b, c1_tr, c1_best,
      WithTop.coe_lt_top, lt_top_iff_ne_top, WithTop.coe_lt_coe,
      lt_self_iff_false]
  exact ⟨h1, h2, h3,
    checkpoint_update_iff_strict_improvement c1_tb c1_vb c1_b c1_tr c1_best
      h1 h2 h3⟩

/-- Decides whether a trace contains a file write strictly between the
first completed train pass and the next completed valid pass. -/
def saveBetweenPasses (tr : List Ev) : Bool :=
  (((tr.dropWhile (fun e => !(e == Ev.pass Split.train))).drop 1).takeWhile
    (fun e => !(e == Ev.pass Split.valid))).any
    (fun e => match e with
      | Ev.save _ => true
      | _ => false)

/-- Counterexample to C3 as stated: in the very first epoch of a
concrete run the train-slot checkpoint evaluation writes its files
between the train pass and the valid pass, so the claimed
`TRAIN_PASS -> VALID_PASS -> CHECKPOINT_EVAL` sequence with no write
before the valid pass does not hold. -/
theorem save_between_train_and_valid_pass_cex :
    saveBetweenPasses (epochStep [⟨4, 2, 1⟩] [⟨4, 3, 2⟩] Best.init).1 = true := by
  have ht : (epochStep [⟨4, 2, 1⟩] [⟨4, 3, 2⟩] Best.init).1 =
      [Ev.pass Split.train, Ev.save "model_best_loss_train.pth",
       Ev.save "optim_best_loss_train.pth", Ev.save "model_best_acc_train.pth",
       Ev.save "optim_best_acc_train.pth", Ev.report Split.train 1 50,
       Ev.pass Split.valid, Ev.save "model_best_loss_valid.pth",
       Ev.save "optim_best_loss_valid.pth", Ev.save "model_best_acc_valid.pth",
       Ev.save "optim_best_acc_valid.pth", Ev.report Split.valid 2 75] := by
    norm_num [epochStep, runPass, accumBatch, initTotals, runningAcc,
      checkLoss, checkAcc, Best.init, WithTop.coe_lt_top, lt_top_iff_ne_top]
  rw [ht]
  rfl

/-- C3 as amended: every epoch's trace is the train pass, then the
train-slot checkpoint evaluation (whose writes target only the two train
slots), then the valid pass, then the valid-slot checkpoint evaluation —
the train-slot checkpoint evaluation sits between the two passes, not
after them — and a completed run of the configured `epochs` count
performs exactly that many train/valid pass pairs, in order. -/
theorem epoch_state_sequence_and_termination :
    (∀ (tb vb : List BatchResult) (b : Best),
      (runPass tb).total ≠ 0 → (runPass vb).total ≠ 0 →
      ∃ trainCkpt validCkpt : List Ev,
        (epochStep tb vb b).1 =
          Ev.pass Split.train :: trainCkpt ++ Ev.pass Split.valid :: validCkpt ∧
        passes trainCkpt = [] ∧ passes validCkpt = [] ∧
        (∀ f, Ev.save f ∈ trainCkpt →
          f ∈ ["model_best_loss_train.pth", "optim_best_loss_train.pth",
               "model_best_acc_train.pth", "optim_best_acc_train.pth"]) ∧
        (∀ f, Ev.save f ∈ validCkpt →
          f ∈ ["model_best_loss_valid.pth", "optim_best_loss_valid.pth",
               "model_best_acc_valid.pth", "optim_best_acc_valid.pth"])) ∧
    (∀ (data : Nat → List BatchResult × List BatchResult) (n : Nat) (b : Best),
      (runEpochs data n).2 = some b →
      passes (runEpochs data n).1 =
        (List.replicate n [Split.train, Split.valid]).join) := by
  constructor
  · intro tb vb b h1 h2
    refine ⟨(checkLoss b.loss_train (runPass tb).running_loss
        "model_best_loss_train.pth" "optim_best_loss_train.pth").2.map Ev.save ++
        (checkAcc b.acc_train (accOf (runPass tb))
          "model_best_acc_train.pth" "optim_best_acc_train.pth").2.map Ev.save ++
        [Ev.report Split.train (runPass tb).running_loss (accOf (runPass tb))],
      (checkLoss b.loss_valid (runPass vb).running_loss
        "model_best_loss_valid.pth" "optim_best_loss_valid.pth").2.map Ev.save ++
        (checkAcc b.acc_valid (accOf (runPass vb))
          "model_best_acc_valid.pth" "optim_best_acc_valid.pth").2.map Ev.save ++
        [Ev.report Split.valid (runPass vb).running_loss (accOf (runPass vb))],
      ?_, ?_, ?_, ?_, ?_⟩
    · rw [epochStep_eq tb vb b h1 h2]
      simp
    · rw [passes_append, passes_append, passes_map_save, passes_map_save]
      rfl
    · rw [passes_append, passes_append, passes_map_save, passes_map_save]
      rfl
    · intro f hf
      rcases List.mem_append.mp hf with hf | hf
      · rcases List.mem_append.mp hf with hf | hf <;>
          rcases List.mem_map.mp hf with ⟨g, hg, hgf⟩ <;>
          obtain rfl : g = f := by injection hgf
        · rcases mem_checkLoss_files _ _ _ _ _ hg with rfl | rfl <;> simp
        · rcases mem_checkAcc_files _ _ _ _ _ hg with rfl | rfl <;> simp
      · exact absurd hf (by simp)
    · intro f hf
      rcases List.mem_append.mp hf with hf | hf
      · rcases List.mem_append.mp hf with hf | hf <;>
          rcases List.mem_map.mp hf with ⟨g, hg, hgf⟩ <;>
          obtain rfl : g = f := by injection hgf
        · rcases mem_checkLoss_files _ _ _ _ _ hg with rfl | rfl <;> simp
        · rcases mem_checkAcc_files _ _ _ _ _ hg with rfl | rfl <;> simp
      · exact absurd hf (by simp)
  · exact passes_runEpochs

/-- Witness for the amended C3 at a concrete epoch and a concrete
two-epoch run. -/
theorem epoch_state_sequence_and_termination_witness :
    (runPass [⟨4, 2, 1⟩]).total ≠ 0 ∧ (runPass [⟨4, 3, 2⟩]).total ≠ 0 ∧
    (∃ trainCkpt validCkpt : List Ev,
      (epochStep [⟨4, 2, 1⟩] [⟨4, 3, 2⟩] Best.init).1 =
        Ev.pass Split.train :: trainCkpt ++ Ev.pass Split.valid :: validCkpt ∧
      passes trainCkpt = [] ∧ passes validCkpt = [] ∧
      (∀ f, Ev.save f ∈ trainCkpt →
        f ∈ ["model_best_loss_train.pth", "optim_best_loss_train.pth",
             "model_best_acc_train.pth", "optim_best_acc_train.pth"]) ∧
      (∀ f, Ev.save f ∈ validCkpt →
        f ∈ ["model_best_loss_valid.pth", "optim_best_loss_valid.pth",
             "model_best_acc_valid.pth", "optim_best_acc_valid.pth"])) ∧
    (runEpochs (fun _ => ([⟨4, 2, 1⟩], [⟨4, 3, 2⟩])) 2).2 =
      some ⟨((1 : ℚ) : WithTop ℚ), ((2 : ℚ) : WithTop ℚ), 50, 75⟩ ∧
    passes (runEpochs (fun _ => ([⟨4, 2, 1⟩], [⟨4, 3, 2⟩])) 2).1 =
      (List.replicate 2 [Split.train, Split.valid]).join := by
  have hsome : (runEpochs (fun _ => ([⟨4, 2, 1⟩], [⟨4, 3, 2⟩])) 2).2 =
      some ⟨((1 : ℚ) : WithTop ℚ), ((2 : ℚ) : WithTop ℚ), 50, 75⟩ := by
    norm_num [runEpochs, epochStep, runPass, accumBatch, initTotals,
      runningAcc, checkLoss, checkAcc, Best.init, WithTop.coe_lt_top,
      lt_top_iff_ne_top, WithTop.coe_lt_coe, lt_self_iff_false]
  exact ⟨by decide, by decide,
    epoch_state_sequence_and_termination.1 [⟨4, 2, 1⟩] [⟨4, 3, 2⟩] Best.init
      (by decide) (by decide),
    hsome,
    epoch_state_sequence_and_termination.2 (fun _ => ([⟨4, 2, 1⟩], [⟨4, 3, 2⟩]))
      2 ⟨((1 : ℚ) : WithTop ℚ), ((2 : ℚ) : WithTop ℚ), 50, 75⟩ hsome⟩

/-- Concrete configuration for the C2 counterexample: three epochs are
requested and batches are available. -/
def c2_cfg : Config :=
  ⟨"train.csv", "valid.csv", 1 / 1000, 4, 2, 9 / 10, 3, 256, "out", none, false⟩

/-- Concrete environment for the C2 counterexample: the validation split
carries the class name Chickweed, absent from the training split. -/
def c2_env : Env :=
  ⟨[("img0.png", "Maize")], [("img1.png", "Chickweed")], [],
   fun _ => ([⟨4, 2, 1⟩], [⟨4, 3, 2⟩])⟩

/-- Counterexample to C2 as stated: with an unknown validation class
name the run dies with an empty event trace — no train pass, no epoch
ever starts — because the label list comprehension at train.py line 173
is evaluated in `main`, before the data loaders and the `train` call
exist.  The failure is not "late, inside an epoch". -/
theorem unknown_valid_class_fails_before_training_cex :
    mainRun c2_cfg c2_env = ([], none) ∧
    (classes_mp (c2_env.train_rows.map Prod.snd)).lookup "Chickweed" = none ∧
    c2_cfg.epochs ≠ 0 := by
  refine ⟨rfl, rfl, by decide⟩

/-- C2 as amended: for every run whose validation split contains a class
name absent from the training-derived mapping, the lookup failure is
fatal and uncontrolled (the run produces no output), and it occurs at
index-construction time in `main`, before training begins: the event
trace is empty, so no pass of any epoch ever ran. -/
theorem unknown_valid_class_fatal_at_index_construction
    (cfg : Config) (env : Env) (name : String)
    (hmem : name ∈ env.valid_rows.map Prod.snd)
    (hnone : (classes_mp (env.train_rows.map Prod.snd)).lookup name = none) :
    mainRun cfg env = ([], none) := by
  have hv : buildLabels (classes_mp (env.train_rows.map Prod.snd))
      (env.valid_rows.map Prod.snd) = none :=
    buildLabels_none _ _ name hmem hnone
  simp only [mainRun, hv]
  rcases buildLabels (classes_mp (env.train_rows.map Prod.snd))
      (env.train_rows.map Prod.snd) with _ | tl <;> rfl

/-- Witness for the amended C2 at the concrete counterexample inputs. -/
theorem unknown_valid_class_fatal_witness :
    "Chickweed" ∈ c2_env.valid_rows.map Prod.snd ∧
    (classes_mp (c2_env.train_rows.map Prod.snd)).lookup "Chickweed" = none ∧
    mainRun c2_cfg c2_env = ([], none) :=
  ⟨by decide, rfl,
   unknown_valid_class_fatal_at_index_construction c2_cfg c2_env "Chickweed"
     (by decide) rfl⟩

/-- C4: for every training split, the class-id mapping built before
training has exactly K entries — K the number of distinct training class
names — whose keys are exactly those distinct names without duplicates
and whose ids are exactly the integers 0..K-1 in order, with no gaps or
duplicates (a bijection onto `[0, K)`); and whenever label construction
succeeds for a row list (it always does for the training split itself),
every label is the mapping's value for that row's class name. -/
theorem class_id_mapping_bijection_and_labels (tc : List String) :
    (classes_mp tc).length = tc.toFinset.card ∧
    ((classes_mp tc).map Prod.fst).Nodup ∧
    ((classes_mp tc).map Prod.fst).toFinset = tc.toFinset ∧
    (classes_mp tc).map Prod.snd = List.range tc.toFinset.card ∧
    (∃ tl, buildLabels (classes_mp tc) tc = some tl) ∧
    (∀ (names : List String) (l : List Nat),
      buildLabels (classes_mp tc) names = some l →
      l.length = names.length ∧
      ∀ i (hi : i < l.length) (hn : i < names.length),
        (classes_mp tc).lookup (names.get ⟨i, hn⟩) = some (l.get ⟨i, hi⟩)) := by
  refine ⟨?_, ?_, ?_, ?_, ?_, ?_⟩
  · rw [classes_mp_length, dedup_length_eq_card]
  · rw [classes_mp_keys]; exact List.nodup_dedup tc
  · rw [classes_mp_keys]
    exact List.toFinset.ext_iff.mpr (fun x => List.mem_dedup)
  · rw [classes_mp_ids, dedup_length_eq_card]
  · exact buildLabels_some _ _ (fun n hn => classes_mp_lookup_total tc n hn)
  · exact fun names l h => buildLabels_spec _ _ _ h

/-- Witness for C4 on the training split `["a", "b", "a"]` (two distinct
classes) and the row list `["b"]`. -/
theorem class_id_mapping_bijection_and_labels_witness :
    (classes_mp ["a", "b", "a"]).length =
      (["a", "b", "a"] : List String).toFinset.card ∧
    buildLabels (classes_mp ["a", "b", "a"]) ["b"] = some [0] ∧
    ([0] : List Nat).length = (["b"] : List String).length ∧
    (classes_mp ["a", "b", "a"]).lookup
        ((["b"] : List String).get ⟨0, by decide⟩) =
      some (([0] : List Nat).get ⟨0, by decide⟩) := by
  have hb : buildLabels (classes_mp ["a", "b", "a"]) ["b"] = some [0] := by decide
  have hspec :=
    (class_id_mapping_bijection_and_labels ["a", "b", "a"]).2.2.2.2.2 ["b"] [0] hb
  exact ⟨(class_id_mapping_bijection_and_labels ["a", "b", "a"]).1, hb,
    hspec.1, hspec.2 0 (by decide) (by decide)⟩

/-- C9: the resume path reads only `model.pth` and `optim.pth`, names
disjoint from the eight names the checkpoint step ever writes; so a
resume directory holding only checkpoint-step output contains neither
resume file, and the initialisation block loads nothing and takes both
missing-file warning branches. -/
theorem resume_reads_disjoint_from_checkpoint_writes :
    (∀ f ∈ resumeFiles, f ∉ checkpointFiles) ∧
    (∀ (data : Nat → List BatchResult × List BatchResult) (n : Nat)
      (f : String),
      Ev.save f ∈ (runEpochs data n).1 → f ∈ checkpointFiles) ∧
    (∀ (cfg : Config) (files : List String) (d : String),
      cfg.load_from = some d → (∀ f ∈ files, f ∈ checkpointFiles) →
      InitAction.loadModel ∉ initActions cfg files ∧
      InitAction.loadOptim ∉ initActions cfg files ∧
      InitAction.warnModel ∈ initActions cfg files ∧
      InitAction.warnOptim ∈ initActions cfg files) := by
  refine ⟨by decide, save_mem_runEpochs, ?_⟩
  intro cfg files d hld hsub
  have hm : "model.pth" ∉ files := fun h => absurd (hsub _ h) (by decide)
  have ho : "optim.pth" ∉ files := fun h => absurd (hsub _ h) (by decide)
  unfold initActions
  rw [hld]
  rw [if_neg hm, if_neg ho]
  cases hp : cfg.pretrained <;> simp

/-- Witness for C9: a checkpoint write of a one-epoch run, and a
configuration resuming from a directory holding exactly the eight
checkpoint files. -/
theorem resume_reads_disjoint_witness :
    Ev.save "model_best_loss_train.pth" ∈
      (runEpochs (fun _ => ([⟨4, 2, 1⟩], [⟨4, 3, 2⟩])) 1).1 ∧
    "model_best_loss_train.pth" ∈ checkpointFiles ∧
    (⟨"train.csv", "valid.csv", 1 / 1000, 4, 2, 9 / 10, 10, 256, "out",
        some "prev_out", false⟩ : Config).load_from = some "prev_out" ∧
    (InitAction.loadModel ∉
        initActions ⟨"train.csv", "valid.csv", 1 / 1000, 4, 2, 9 / 10, 10, 256,
          "out", some "prev_out", false⟩ checkpointFiles ∧
      InitAction.loadOptim ∉
        initActions ⟨"train.csv", "valid.csv", 1 / 1000, 4, 2, 9 / 10, 10, 256,
          "out", some "prev_out", false⟩ checkpointFiles ∧
      InitAction.warnModel ∈
        initActions ⟨"train.csv", "valid.csv", 1 / 1000, 4, 2, 9 / 10, 10, 256,
          "out", some "prev_out", false⟩ checkpointFiles ∧
      InitAction.warnOptim ∈
        initActions ⟨"train.csv", "valid.csv", 1 / 1000, 4, 2, 9 / 10, 10, 256,
          "out", some "prev_out", false⟩ checkpointFiles) := by
  have hmem : Ev.save "model_best_loss_train.pth" ∈
      (runEpochs (fun _ => ([⟨4, 2, 1⟩], [⟨4, 3, 2⟩])) 1).1 := by
    have ht : (runEpochs (fun _ => ([⟨4, 2, 1⟩], [⟨4, 3, 2⟩])) 1).1 =
        [Ev.pass Split.train, Ev.save "model_best_loss_train.pth",
         Ev.save "optim_best_loss_train.pth", Ev.save "model_best_acc_train.pth",
         Ev.save "optim_best_acc_train.pth", Ev.report Split.train 1 50,
         Ev.pass Split.valid, Ev.save "model_best_loss_valid.pth",
         Ev.save "optim_best_loss_valid.pth", Ev.save "model_best_acc_valid.pth",
         Ev.save "optim_best_acc_valid.pth", Ev.report Split.valid 2 75] := by
      norm_num [runEpochs, epochStep, runPass, accumBatch, initTotals,
        runningAcc, checkLoss, checkAcc, Best.init, WithTop.coe_lt_top,
        lt_top_iff_ne_top]
    rw [ht]
    simp
  refine ⟨hmem,
    resume_reads_disjoint_from_checkpoint_writes.2.1 _ 1 _ hmem, rfl,
    resume_reads_disjoint_from_checkpoint_writes.2.2
      ⟨"train.csv", "valid.csv", 1 / 1000, 4, 2, 9 / 10, 10, 256, "out",
        some "prev_out", false⟩ checkpointFiles "prev_out" rfl
      (fun f hf => hf)⟩

end Seedlings
